import Mathlib

/-!
Verification of the item-sync service's synchronization-resilience core:
the circuit breaker (pkg/circuit/breaker.go), the backoff retrier
(internal/.../retry), the paginated fetch strategy
(internal/item/strategy/pokemon_sync.go), the idempotent upsert
(internal/item/repository/item_repository.go), the sync job
(internal/item/jobs/sync_job.go) and the worker scheduler.

Go code is shallowly embedded: time instants are nanosecond counts
modelled as `Nat`, `time.Duration` values are nanosecond `Nat`s,
`float64` arithmetic is modelled exactly over `ℚ`, Go errors are an
inductive wrapper tree, and stateful methods become explicit
state-passing functions.
-/

namespace ItemSync

/-! ## Circuit breaker (pkg/circuit/breaker.go)

The Go `CircuitBreaker` guards each call with `canExecute`, runs the
operation, and records the result under a mutex.  `time.Now()` is
threaded through as an explicit `now : Nat`; within one `Execute` call
the several `time.Now()` readings are identified (the Go code takes
them microseconds apart inside one critical section).  `time.After`
on instants is strict `>`. -/

/-- Breaker state: `StateClosed`, `StateOpen`, `StateHalfOpen` in the Go
source (`opened` stands for Go's `StateOpen`; `open` is a Lean keyword). -/
inductive BreakerState
  | closed
  | opened
  | halfOpen
  deriving DecidableEq, Repr

/-- Mutable fields of Go's `CircuitBreaker` plus its two configuration
fields (`threshold`, `timeout`); the `name`, `logger` and mutex fields
carry no state relevant to the transitions. -/
structure CircuitBreaker where
  threshold : Nat
  timeout : Nat
  state : BreakerState
  failureCount : Nat
  successCount : Nat
  lastFailTime : Nat
  nextRetryTime : Nat
  deriving DecidableEq, Repr

/-- Go `CircuitBreaker.canExecute`: Closed and HalfOpen pass; Open passes
only when `time.Now().After(nextRetryTime)`, i.e. strictly after. -/
def canExecute (cb : CircuitBreaker) (now : Nat) : Bool :=
  match cb.state with
  | .closed => true
  | .opened => decide (now > cb.nextRetryTime)
  | .halfOpen => true

/-- Go `CircuitBreaker.reset`: zero both counters. -/
def resetCounters (cb : CircuitBreaker) : CircuitBreaker :=
  { cb with failureCount := 0, successCount := 0 }

/-- Go `CircuitBreaker.recordFailure`: increment the failure count and
stamp `lastFailTime`; from Closed open the breaker once the count reaches
the threshold; from HalfOpen reopen with a fresh retry time.  The Go
switch has no `StateOpen` case, so a failure recorded while Open changes
neither the state nor `nextRetryTime`. -/
def recordFailure (cb : CircuitBreaker) (now : Nat) : CircuitBreaker :=
  let cb1 := { cb with failureCount := cb.failureCount + 1, lastFailTime := now }
  match cb1.state with
  | .closed =>
      if cb1.failureCount ≥ cb1.threshold then
        { cb1 with state := .opened, nextRetryTime := now + cb1.timeout }
      else
        cb1
  | .halfOpen =>
      { cb1 with state := .opened, nextRetryTime := now + cb1.timeout }
  | .opened => cb1

/-- Go `CircuitBreaker.recordSuccess`: increment the success count; from
Closed reset the counters; from HalfOpen close and reset; from Open move
to HalfOpen when the retry time has strictly elapsed. -/
def recordSuccess (cb : CircuitBreaker) (now : Nat) : CircuitBreaker :=
  let cb1 := { cb with successCount := cb.successCount + 1 }
  match cb1.state with
  | .closed => resetCounters cb1
  | .halfOpen => resetCounters { cb1 with state := .closed }
  | .opened =>
      if now > cb1.nextRetryTime then { cb1 with state := .halfOpen } else cb1

/-- Go `CircuitBreaker.recordResult`: dispatch on whether the operation
returned an error. -/
def recordResult (cb : CircuitBreaker) (now : Nat) (opFailed : Bool) : CircuitBreaker :=
  if opFailed then recordFailure cb now else recordSuccess cb now

/-- Error outcome of one `Execute` call: the breaker's own rejection or
the operation's error passed through. -/
inductive ExecError
  | circuitOpen
  | opError
  deriving DecidableEq, Repr

/-- Observable outcome of one Go `CircuitBreaker.Execute` call: whether
the operation was invoked, the returned error, and the breaker state
afterwards. -/
structure ExecOutcome where
  invoked : Bool
  error : Option ExecError
  breaker : CircuitBreaker
  deriving DecidableEq, Repr

/-- Go `CircuitBreaker.Execute`: reject with `ErrCircuitOpen` when
`canExecute` refuses (leaving the breaker untouched); otherwise invoke
the operation, record its result and propagate its error.  The
operation's outcome is the boolean `opFails`. -/
def Execute (cb : CircuitBreaker) (now : Nat) (opFails : Bool) : ExecOutcome :=
  if canExecute cb now then
    { invoked := true
      error := if opFails then some .opError else none
      breaker := recordResult cb now opFails }
  else
    { invoked := false, error := some .circuitOpen, breaker := cb }

/-! ## Backoff retrier (package retry)

Go errors relevant to the retrier form a small wrapper tree: the
`context.Canceled` and `context.DeadlineExceeded` sentinels, plain leaf
errors, and the `retry.RetryableError` / `retry.NonRetryableError`
wrappers (whose `Unwrap` returns the wrapped error).  `errors.Is` walks
the unwrap chain comparing against a sentinel; `errors.As` walks it
looking for a wrapper of the requested type. -/

/-- Go error values as seen by the retry package: sentinels, leaf errors
and the two classification wrappers. -/
inductive GoErr
  | canceled
  | deadlineExceeded
  | msg (s : String)
  | retryable (e : GoErr)
  | nonRetryable (e : GoErr)
  deriving DecidableEq, Repr

/-- Go `errors.Is e target` for sentinel targets: `e == target`, else
recurse through `Unwrap` (only the two wrappers unwrap). -/
def errIs : GoErr → GoErr → Bool
  | .retryable inner, target => (GoErr.retryable inner == target) || errIs inner target
  | .nonRetryable inner, target => (GoErr.nonRetryable inner == target) || errIs inner target
  | e, target => e == target

/-- Go `errors.As e &nonRetryableErr`: does the unwrap chain contain a
`NonRetryableError` wrapper? -/
def errAsNonRetryable : GoErr → Bool
  | .nonRetryable _ => true
  | .retryable inner => errAsNonRetryable inner
  | _ => false

/-- Go `errors.As e &retryableErr`: does the unwrap chain contain a
`RetryableError` wrapper? -/
def errAsRetryable : GoErr → Bool
  | .retryable _ => true
  | .nonRetryable inner => errAsRetryable inner
  | _ => false

/-- Go `Retrier.shouldRetry`: nil never retries; a cancellation or
deadline error (anywhere in the unwrap chain) never retries; everything
else retries.  Note the function consults only the two context
sentinels — it does not consult `IsRetryable` or the
`NonRetryableError` mark. -/
def shouldRetry : Option GoErr → Bool
  | none => false
  | some e => !(errIs e .canceled || errIs e .deadlineExceeded)

/-- Go `retry.IsRetryable`: a `NonRetryableError` wrapper wins, then a
`RetryableError` wrapper, then the default is retryable. -/
def IsRetryable (e : GoErr) : Bool :=
  if errAsNonRetryable e then false
  else if errAsRetryable e then true
  else true

/-- Go `config.RetryConfig` fields used by the retrier.  Delays are
nanosecond counts.  The `float64` backoff factor — a non-negative
dyadic rational in every float64 — is carried exactly as the fraction
`factorNum / factorDen` (e.g. 2.0 is `2 / 1`). -/
structure RetryConfig where
  maxRetries : Nat
  initialDelay : Nat
  maxDelay : Nat
  factorNum : Nat
  factorDen : Nat
  deriving DecidableEq, Repr

/-- Go `Retrier.calculateBackoff`:
`time.Duration(float64(initialDelay) * math.Pow(backoffFactor, attempt-1))`
capped at `maxDelay`.  The `float64 → time.Duration` conversion
truncates to whole nanoseconds, so with the factor carried exactly as
`factorNum / factorDen` the product is the floor
`initialDelay * factorNum^(attempt-1) / factorDen^(attempt-1)` in `Nat`
division (float arithmetic is modelled exactly, without rounding). -/
def calculateBackoff (cfg : RetryConfig) (attempt : Nat) : Nat :=
  let delay := cfg.initialDelay * cfg.factorNum ^ (attempt - 1) / cfg.factorDen ^ (attempt - 1)
  if delay > cfg.maxDelay then cfg.maxDelay else delay

/-- Observable outcome of one Go `Retrier.Execute` call: the returned
error, the number of operation invocations, and the backoff sleeps
performed, in order. -/
structure RetryOutcome where
  error : Option GoErr
  attempts : Nat
  sleeps : List Nat
  deriving DecidableEq, Repr

/-- Loop body of Go `Retrier.Execute`, from loop variable `attempt` with
`remaining` iterations left (`remaining = maxRetries - attempt + 1` at
entry) and the current `lastErr`.  Each iteration first sleeps the
backoff when `attempt > 0`, then invokes the operation (`op attempt` is
the error of the attempt numbered `attempt`, `none` for success); a nil
error returns nil, a non-retryable error returns at once, otherwise the
loop continues and `lastErr` is returned on exhaustion.  The embedding
assumes the context is not cancelled during the backoff sleeps. -/
def ExecuteFrom (cfg : RetryConfig) (op : Nat → Option GoErr) :
    Option GoErr → Nat → Nat → RetryOutcome
  | lastErr, _, 0 => { error := lastErr, attempts := 0, sleeps := [] }
  | _, attempt, remaining + 1 =>
    let pre : List Nat := if attempt > 0 then [calculateBackoff cfg attempt] else []
    match op attempt with
    | none => { error := none, attempts := 1, sleeps := pre }
    | some e =>
      if shouldRetry (some e) then
        let rest := ExecuteFrom cfg op (some e) (attempt + 1) remaining
        { error := rest.error, attempts := rest.attempts + 1, sleeps := pre ++ rest.sleeps }
      else
        { error := some e, attempts := 1, sleeps := pre }

/-- Go `Retrier.Execute`: run the loop for attempts `0 .. maxRetries`
starting with a nil `lastErr`. -/
def RetrierExecute (cfg : RetryConfig) (op : Nat → Option GoErr) : RetryOutcome :=
  ExecuteFrom cfg op none 0 (cfg.maxRetries + 1)

/-! ## Pagination strategy (internal/item/strategy/pokemon_sync.go)

`FetchAllItems` drives an API client across pages.  The client is a
function of the request's `offset` and `limit` parameters returning
either the page's records or an error.  A record's `ExtendInfo` map is
abstracted to the one datum `extractNextURL` probes it for: the "next"
continuation URL, when the metadata carries one.  Offsets and limits
are Go `int`s, modelled as `Int`.  The Go `for` loop has no bound, so
the embedding takes a fuel argument and returns `none` when the fuel
runs out before the loop exits. -/

/-- Go `entity.ExternalItem`, reduced to the fields the pagination loop
reads: identity, title, and the continuation URL that
`extractNextURL` finds in its `ExtendInfo` metadata (if any). -/
structure ExternalItem where
  id : Int
  title : String
  nextMeta : Option String
  deriving DecidableEq, Repr

/-- Go `PokemonSyncStrategy.extractNextURL`: scan the page's items in
order and return the first continuation URL found in an item's
metadata; `none` when the page is empty or no item carries one. -/
def extractNextURL : List ExternalItem → Option String
  | [] => none
  | it :: rest =>
    match it.nextMeta with
    | some u => some u
    | none => extractNextURL rest

/-- Digit-run parser underlying Go `strconv.Atoi`: all characters must
be decimal digits and at least one digit must be present. -/
def parseDigits : List Char → Option Nat → Option Nat
  | [], acc => acc
  | c :: rest, acc =>
    if c.isDigit then
      parseDigits rest (some ((acc.getD 0) * 10 + (c.toNat - '0'.toNat)))
    else
      none

/-- Go `strconv.Atoi`: optional sign followed by one or more decimal
digits; anything else is an error.  (64-bit overflow is not modelled;
the URLs in play carry small offsets.) -/
def atoi (s : String) : Except Unit Int :=
  match s.toList with
  | [] => .error ()
  | '+' :: rest =>
    match parseDigits rest none with
    | some n => .ok (n : Int)
    | none => .error ()
  | '-' :: rest =>
    match parseDigits rest none with
    | some n => .ok (-(n : Int))
    | none => .error ()
  | l =>
    match parseDigits l none with
    | some n => .ok (n : Int)
    | none => .error ()

/-- Split a character list at every separator satisfying `p`, keeping
empty pieces (the semantics of Go `strings.Split` and of Lean
`String.split`, reimplemented structurally over `List Char` so it
computes in the kernel). -/
def splitChars (p : Char → Bool) : List Char → List (List Char)
  | [] => [[]]
  | c :: rest =>
    if p c then
      [] :: splitChars p rest
    else
      match splitChars p rest with
      | [] => [[c]]
      | piece :: pieces => (c :: piece) :: pieces

/-- Rejoin pieces with a separator character (inverse of
`splitChars` on the tail pieces). -/
def joinSep (sep : Char) : List (List Char) → List Char
  | [] => []
  | [piece] => piece
  | piece :: rest => piece ++ sep :: joinSep sep rest

/-- Go `net/url`: `url.Parse` rejects URLs containing ASCII control
characters; this is its failure mode relevant here, so parse success is
modelled as control-character freedom. -/
def urlParseOk (s : String) : Bool :=
  s.toList.all (fun c => !(c.toNat < 0x20 || c.toNat == 0x7f))

/-- Raw query of a parsed URL: the portion after the first `?`, with
the fragment (after the first `#`) stripped first, as `url.Parse`
does. -/
def rawQuery (s : String) : List Char :=
  let noFrag := (splitChars (· = '#') s.toList).headD s.toList
  match splitChars (· = '?') noFrag with
  | [] => []
  | _ :: rest => joinSep '?' rest

/-- Pairs of a parsed query string: split on `&`, each piece split at
its first `=` (a piece without `=` is a key with empty value; empty
pieces are dropped).  Percent-decoding is not modelled — the
continuation URLs in play carry plain digits. -/
def queryPairs (q : List Char) : List (List Char × List Char) :=
  (splitChars (· = '&') q).filterMap fun kv =>
    if kv.isEmpty then none
    else
      match splitChars (· = '=') kv with
      | [] => some (kv, [])
      | k :: vs => some (k, joinSep '=' vs)

/-- Go `url.Values.Get`: first value for the key, `""` when absent. -/
def queryGet (q : List Char) (key : String) : String :=
  match (queryPairs q).find? (fun p => p.1 == key.toList) with
  | some p => String.mk p.2
  | none => ""

/-- Go `PokemonSyncStrategy.parseNextURL`.  On `url.Parse` failure it
returns `(0, 20, err)` (the error case).  Otherwise it reads `offset`
and `limit` from the query: a missing or unparsable `offset` yields 0,
a missing or unparsable `limit` yields 20; the function's final
`return offset, limit, nil` discards any `Atoi` error, so a reachable
error requires `url.Parse` itself to fail. -/
def parseNextURL (nextURL : String) : Except Unit (Int × Int) :=
  if !urlParseOk nextURL then
    .error ()
  else
    let query := rawQuery nextURL
    let offsetStr := queryGet query "offset"
    let offset : Int :=
      if offsetStr ≠ "" then
        match atoi offsetStr with
        | .ok n => n
        | .error _ => 0
      else 0
    let limitStr := queryGet query "limit"
    let limit : Int :=
      if limitStr ≠ "" then
        match atoi limitStr with
        | .ok n => n
        | .error _ => 20
      else 20
    .ok (offset, limit)

/-- Observable outcome of Go `PokemonSyncStrategy.FetchAllItems`: the
accumulated records, the returned error, and the number of fetch calls
made. -/
structure FetchAllResult where
  items : List ExternalItem
  error : Option String
  calls : Nat
  deriving DecidableEq, Repr

/-- Loop body of Go `FetchAllItems`.  Each iteration fetches
`(offset, limit)`; a fetch error returns the records so far with the
error; an empty page, a missing continuation URL, or a page shorter
than the (possibly cursor-updated) limit ends the loop; a cursor that
fails to parse as a URL falls back to `offset += limit` with the same
limit.  Fuel exhaustion (the Go loop still running) yields `none`. -/
def fetchAllLoop (client : Int → Int → Except String (List ExternalItem)) :
    Nat → Int → Int → List ExternalItem → Option FetchAllResult
  | 0, _, _, _ => none
  | fuel + 1, offset, limit, acc =>
    match client offset limit with
    | .error e => some { items := acc, error := some e, calls := 1 }
    | .ok items =>
      if items.isEmpty then
        some { items := acc, error := none, calls := 1 }
      else
        let acc1 := acc ++ items
        match extractNextURL items with
        | none => some { items := acc1, error := none, calls := 1 }
        | some nextURL =>
          let next : Int × Int :=
            match parseNextURL nextURL with
            | .error _ => (offset + limit, limit)
            | .ok ol => ol
          if (items.length : Int) < next.2 then
            some { items := acc1, error := none, calls := 1 }
          else
            match fetchAllLoop client fuel next.1 next.2 acc1 with
            | none => none
            | some r => some { r with calls := r.calls + 1 }

/-- Caller-supplied parameters of Go `SyncItemsRequest` that
`FetchAllItems` reads: the optional `offset` and `limit` entries of the
params map. -/
structure SyncItemsRequest where
  paramOffset : Option Int
  paramLimit : Option Int
  deriving DecidableEq, Repr

/-- Go `PokemonSyncStrategy.FetchAllItems`: start from offset 0 and
limit 20, overridden by the request's params, and run the loop. -/
def FetchAllItems (client : Int → Int → Except String (List ExternalItem))
    (request : SyncItemsRequest) (fuel : Nat) : Option FetchAllResult :=
  fetchAllLoop client fuel (request.paramOffset.getD 0) (request.paramLimit.getD 20) []

/-! ## Idempotent upsert (internal/item/repository/item_repository.go)

`UpsertWithHash` issues one MySQL
`INSERT ... ON DUPLICATE KEY UPDATE` against the unique key
`(external_id, api_source)`.  The table is a list of rows; the unique
key is an invariant (`KeyUnique`) that the upsert preserves.  The
attribute bag is carried as its `json.Marshal` serialization (a
string), and the SHA-256 digest is an abstract function `hash` of the
digested string `title ++ ":" ++ json` — the digest's only role is the
equality comparison in the `extend_info` CASE, which MySQL evaluates
against the row's pre-update `content_hash` (the `content_hash`
assignment comes later in the SET list). -/

/-- Fields of Go `entity.ExternalItem` that `UpsertWithHash` persists:
identity, title, and the serialized attribute bag. -/
structure ExternalRecord where
  id : Int
  title : String
  extendInfo : String
  deriving DecidableEq, Repr

/-- One row of the `items` table, restricted to the columns
`UpsertWithHash` touches or the claims read. -/
structure Row where
  title : String
  description : String
  externalID : Int
  apiSource : String
  extendInfo : String
  contentHash : String
  lastSyncedAt : Nat
  createdAt : Nat
  updatedAt : Nat
  syncAttempts : Nat
  lastSyncError : Option String
  deriving DecidableEq, Repr

/-- Go `ItemRepository.calculateContentHash`: digest of
`fmt.Sprintf("%s:%s", title, extendInfoJSON)`; the SHA-256 digest
itself is the abstract `hash`. -/
def calculateContentHash (hash : String → String) (title extendInfoJSON : String) : String :=
  hash (title ++ ":" ++ extendInfoJSON)

/-- Does a row match the unique key `(external_id, api_source)`? -/
def rowKeyMatches (src : String) (extID : Int) (r : Row) : Bool :=
  r.externalID == extID && r.apiSource == src

/-- The `ON DUPLICATE KEY UPDATE` clause applied to the conflicting
row: title and description always refresh, `extend_info` refreshes only
when the stored `content_hash` differs from the new one, `content_hash`
takes the new value, timestamps advance, `sync_attempts` increments,
`last_sync_error` is cleared; `created_at` is untouched. -/
def upsertUpdate (now : Nat) (it : ExternalRecord) (h : String) (r : Row) : Row :=
  { r with
    title := it.title
    description := ""
    extendInfo := if r.contentHash ≠ h then it.extendInfo else r.extendInfo
    contentHash := h
    lastSyncedAt := now
    updatedAt := now
    syncAttempts := r.syncAttempts + 1
    lastSyncError := none }

/-- The `INSERT` row: description is the hard-coded `""`, all three
timestamps are `now`, `sync_attempts` starts at 1,
`last_sync_error` at NULL. -/
def insertRow (now : Nat) (src : String) (it : ExternalRecord) (h : String) : Row :=
  { title := it.title
    description := ""
    externalID := it.id
    apiSource := src
    extendInfo := it.extendInfo
    contentHash := h
    lastSyncedAt := now
    createdAt := now
    updatedAt := now
    syncAttempts := 1
    lastSyncError := none }

/-- Go `ItemRepository.UpsertWithHash` as a table transformation:
compute the content hash, then insert, or on key conflict apply the
update clause to the conflicting row. -/
def UpsertWithHash (hash : String → String) (now : Nat) (src : String)
    (it : ExternalRecord) (tbl : List Row) : List Row :=
  let h := calculateContentHash hash it.title it.extendInfo
  if tbl.any (rowKeyMatches src it.id) then
    tbl.map fun r => if rowKeyMatches src it.id r then upsertUpdate now it h r else r
  else
    tbl ++ [insertRow now src it h]

/-- Number of rows matching a unique key. -/
def keyCount (src : String) (extID : Int) (tbl : List Row) : Nat :=
  tbl.countP (rowKeyMatches src extID)

/-- First row matching a unique key. -/
def findRow (src : String) (extID : Int) (tbl : List Row) : Option Row :=
  tbl.find? (rowKeyMatches src extID)

/-- The database's unique key on `(external_id, api_source)`: no key
matches two rows. -/
def KeyUnique (tbl : List Row) : Prop :=
  ∀ src extID, keyCount src extID tbl ≤ 1

/-! ## Sync job (internal/item/jobs/sync_job.go)

`SyncJob.Execute` is modelled at the level of the job-repository calls
it issues.  The source-specific sync routine (`syncPokemonData` /
`syncWeatherData`) is the environment `syncRun`, returning the final
counts and last error; the run-record store's `CreateSyncJobRecord`
outcome is `createResult`; the measured execution time is `execTime`. -/

/-- One call on the Go `JobRepository`. -/
inductive JobRepoCall
  | createRun (jobName apiType : String)
  | updateRun (jobID : Nat) (status : String) (processed succeeded failed : Nat)
      (errMsg : Option String) (execTime : Nat)
  deriving DecidableEq, Repr

/-- Is this repository call the finalizing `UpdateSyncJobRecord`? -/
def isUpdateRun : JobRepoCall → Bool
  | .updateRun .. => true
  | _ => false

/-- Final counts and last error of one source-specific sync routine. -/
structure SyncOutcome where
  processed : Nat
  succeeded : Nat
  failed : Nat
  lastError : Option String
  deriving DecidableEq, Repr

/-- The fields of Go `SyncJob` the control flow reads. -/
structure SyncJobModel where
  name : String
  apiType : String
  apiClientConfigured : Bool
  deriving DecidableEq, Repr

/-- Body of Go `SyncJob.Execute` between record creation and the
deferred finalizer: the `switch` on `apiType` dispatches to the
source-specific routine; an unsupported type sets `lastError` and
returns early (through the defer).  Returns the final values the defer
reads. -/
def syncJobBody (j : SyncJobModel) (syncRun : String → SyncOutcome) : SyncOutcome :=
  if j.apiType = "pokemon" then syncRun "pokemon"
  else if j.apiType = "openweather" then syncRun "openweather"
  else
    { processed := 0, succeeded := 0, failed := 0
      lastError := some ("unsupported API type: " ++ j.apiType) }

/-- Go `SyncJob.Execute`: fail fast when no API client is configured
(before any record exists); create the run record (status `running`) and
return its error when creation fails (the defer is installed only after
a successful create); otherwise run the body and — via the deferred
finalizer, on every exit path — issue exactly one
`UpdateSyncJobRecord` with status `completed` when no error was
observed and `failed` otherwise, carrying the final counts and the
execution time.  Returns the function's error and the ordered trace of
job-repository calls. -/
def SyncJobExecute (j : SyncJobModel) (createResult : Except String Nat)
    (syncRun : String → SyncOutcome) (execTime : Nat) :
    Option String × List JobRepoCall :=
  if !j.apiClientConfigured then
    (some ("API client not configured for " ++ j.apiType), [])
  else
    match createResult with
    | .error e => (some e, [.createRun j.name j.apiType])
    | .ok jobID =>
      let body := syncJobBody j syncRun
      let status := if body.lastError.isSome then "failed" else "completed"
      (body.lastError,
        [.createRun j.name j.apiType,
         .updateRun jobID status body.processed body.succeeded body.failed
           body.lastError execTime])

/-! ## Scheduler (package worker)

`Scheduler.Start` is a `select` loop over three channels: the context's
done channel, the stop channel, and the interval ticker.  A run of the
loop is modelled by the sequence of `select` outcomes it observes, in
order.  `time.NewTicker` delivers its first tick one full
`SyncInterval` after creation, so any `tick` event occurs only after an
interval has elapsed — in particular no jobs run before the first
event. -/

/-- One `select` outcome in the `Scheduler.Start` loop. -/
inductive SchedEvent
  | tick
  | ctxDone
  | stopSignal
  deriving DecidableEq, Repr

/-- How `Scheduler.Start` returned. -/
inductive StartExit
  | alreadyRunning
  | disabled
  | ctxErr
  | stopped
  | stillLooping
  deriving DecidableEq, Repr

/-- Observable outcome of one `Scheduler.Start` run: for each executed
tick, the batch of job names launched, plus how the call returned
(`stillLooping` when the event sequence ended with the loop still
blocked in `select`). -/
structure StartResult where
  firings : List (List String)
  exit : StartExit
  deriving DecidableEq, Repr

/-- Go `Scheduler.executeJobs`: snapshot the registry; when it is empty
skip, otherwise launch every registered job concurrently (one batch). -/
def executeJobs (jobs : List String) : List (List String) :=
  if jobs.isEmpty then [] else [jobs]

/-- The `for`/`select` loop of Go `Scheduler.Start`: context
cancellation returns `ctx.Err()`, a stop signal returns nil, a ticker
tick runs `executeJobs` and loops. -/
def schedLoop (jobs : List String) : List SchedEvent → StartResult
  | [] => { firings := [], exit := .stillLooping }
  | .ctxDone :: _ => { firings := [], exit := .ctxErr }
  | .stopSignal :: _ => { firings := [], exit := .stopped }
  | .tick :: rest =>
    let r := schedLoop jobs rest
    { r with firings := executeJobs jobs ++ r.firings }

/-- Registry and flags of the Go `Scheduler` at the moment `Start` is
called. -/
structure SchedulerModel where
  enabled : Bool
  jobs : List String
  running : Bool
  deriving DecidableEq, Repr

/-- Go `Scheduler.Start`: a second start is a no-op; a disabled
scheduler returns immediately without firing any job; otherwise enter
the ticker loop.  No job fires before the loop's first tick event. -/
def SchedulerStart (s : SchedulerModel) (events : List SchedEvent) : StartResult :=
  if s.running then { firings := [], exit := .alreadyRunning }
  else if !s.enabled then { firings := [], exit := .disabled }
  else schedLoop s.jobs events

/-- Ticks a `Start` loop executes before it returns: the leading ticks
of the event sequence, up to the first terminating event. -/
def ticksBeforeExit : List SchedEvent → Nat
  | .tick :: rest => ticksBeforeExit rest + 1
  | _ => 0

/-! ## Theorems -/

/-- C10: when `CircuitBreaker.Execute` rejects a call because the
breaker is Open and `now < nextRetryTime`, it returns `ErrCircuitOpen`
without invoking the operation and leaves every field of the breaker
unchanged — a rejected call is never recorded as a failure or a
success. -/
theorem c10_open_rejection_frame (cb : CircuitBreaker) (now : Nat) (opFails : Bool)
    (hs : cb.state = .opened) (ht : now < cb.nextRetryTime) :
    Execute cb now opFails = { invoked := false, error := some .circuitOpen, breaker := cb } := by
  have hc : canExecute cb now = false := by
    simp only [canExecute, hs, decide_eq_false_iff_not]
    omega
  simp [Execute, hc]

/-- C10 witness: a concrete Open breaker with `nextRetryTime = 5`
rejects a call at `now = 4` unchanged. -/
theorem c10_open_rejection_frame_witness :
    Execute ⟨3, 10, .opened, 3, 0, 0, 5⟩ 4 true
      = { invoked := false, error := some .circuitOpen,
          breaker := ⟨3, 10, .opened, 3, 0, 0, 5⟩ } :=
  c10_open_rejection_frame ⟨3, 10, .opened, 3, 0, 0, 5⟩ 4 true rfl (by decide)

/-- C4 counterexample: at `now = nextRetryTime` (so `now ≥
nextRetryTime`) an Open breaker still rejects the call — Go's
`time.Now().After(nextRetryTime)` is strict, so the claim's "until
`now >= nextRetryTime`, at which point a new attempt is allowed
through" fails at the boundary instant. -/
theorem c4_counterexample :
    let cb : CircuitBreaker := ⟨3, 10, .opened, 3, 0, 0, 10⟩
    10 ≥ cb.nextRetryTime ∧
      (Execute cb 10 false).invoked = false ∧
      (Execute cb 10 false).error = some .circuitOpen := by decide

/-- C4 amended: while a Closed breaker has observed fewer than
`threshold` consecutive failures it stays Closed and every call invokes
the operation; at exactly `threshold` consecutive failures it
transitions to Open with `nextRetryTime = now + timeout`; while Open,
every call is rejected with the circuit-open error, without invoking
the operation, as long as `now ≤ nextRetryTime` (equivalently until
`now` is STRICTLY after `nextRetryTime` — not `now ≥ nextRetryTime`),
at which point a new attempt is allowed through. -/
theorem c4_threshold_and_open_gating (cb : CircuitBreaker) (now : Nat) (opFails : Bool) :
    (cb.state = .closed → (Execute cb now opFails).invoked = true) ∧
    (cb.state = .closed → cb.failureCount + 1 < cb.threshold →
      (Execute cb now true).breaker.state = .closed) ∧
    (cb.state = .closed → cb.failureCount + 1 = cb.threshold →
      (Execute cb now true).breaker.state = .opened ∧
      (Execute cb now true).breaker.nextRetryTime = now + cb.timeout) ∧
    (cb.state = .opened → now ≤ cb.nextRetryTime →
      Execute cb now opFails =
        { invoked := false, error := some .circuitOpen, breaker := cb }) ∧
    (cb.state = .opened → now > cb.nextRetryTime →
      (Execute cb now opFails).invoked = true) := by
  refine ⟨fun hs => ?_, fun hs hlt => ?_, fun hs heq => ?_, fun hs hle => ?_, fun hs hgt => ?_⟩
  · simp [Execute, canExecute, hs]
  · have hnge : ¬ cb.failureCount + 1 ≥ cb.threshold := by omega
    simp [Execute, canExecute, recordResult, recordFailure, hs, hnge]
  · have hge : cb.failureCount + 1 ≥ cb.threshold := by omega
    simp [Execute, canExecute, recordResult, recordFailure, hs, hge]
  · have hc : canExecute cb now = false := by
      simp only [canExecute, hs, decide_eq_false_iff_not]
      omega
    simp [Execute, hc]
  · have hc : canExecute cb now = true := by
      simp [canExecute, hs]
      omega
    simp [Execute, hc]

/-- C4 witness: a Closed breaker with threshold 3 stays Closed after
failures 1 and 2 and opens exactly at the third, with `nextRetryTime =
now + timeout`; the Open breaker rejects at the boundary instant and
admits one instant later. -/
theorem c4_threshold_and_open_gating_witness :
    ((Execute ⟨3, 10, .closed, 1, 0, 0, 0⟩ 7 true).breaker.state = .closed) ∧
    ((Execute ⟨3, 10, .closed, 2, 0, 0, 0⟩ 7 true).breaker.state = .opened ∧
      (Execute ⟨3, 10, .closed, 2, 0, 0, 0⟩ 7 true).breaker.nextRetryTime = 7 + 10) ∧
    (Execute ⟨3, 10, .opened, 3, 0, 0, 17⟩ 17 true =
      { invoked := false, error := some .circuitOpen,
        breaker := ⟨3, 10, .opened, 3, 0, 0, 17⟩ }) ∧
    ((Execute ⟨3, 10, .opened, 3, 0, 0, 17⟩ 18 true).invoked = true) :=
  ⟨((c4_threshold_and_open_gating ⟨3, 10, .closed, 1, 0, 0, 0⟩ 7 true).2.1 rfl (by decide)),
   ((c4_threshold_and_open_gating ⟨3, 10, .closed, 2, 0, 0, 0⟩ 7 true).2.2.1 rfl (by decide)),
   ((c4_threshold_and_open_gating ⟨3, 10, .opened, 3, 0, 0, 17⟩ 17 true).2.2.2.1 rfl (by decide)),
   ((c4_threshold_and_open_gating ⟨3, 10, .opened, 3, 0, 0, 17⟩ 18 true).2.2.2.2 rfl (by decide))⟩

/-- C1 counterexample: an Open breaker (timeout 10, `nextRetryTime` 5)
probed at `now = 6`: on success it moves to HalfOpen — not Closed — and
its counters are not reset; on failure it stays Open with
`nextRetryTime` UNCHANGED (5, not `6 + 10`), because Go
`recordFailure`'s switch has no `StateOpen` case. -/
theorem c1_counterexample :
    let cb : CircuitBreaker := ⟨3, 10, .opened, 3, 0, 0, 5⟩
    6 > cb.nextRetryTime ∧
      (Execute cb 6 false).invoked = true ∧
      (Execute cb 6 false).breaker.state = .halfOpen ∧
      (Execute cb 6 false).breaker.state ≠ .closed ∧
      (Execute cb 6 false).breaker.failureCount = 3 ∧
      (Execute cb 6 true).breaker.state = .opened ∧
      (Execute cb 6 true).breaker.nextRetryTime = 5 ∧
      (Execute cb 6 true).breaker.nextRetryTime ≠ 6 + cb.timeout := by decide

/-- C1 amended: for an Open breaker whose timeout has strictly elapsed
(`now > nextRetryTime`), the next `Execute` call is allowed through; if
that probe succeeds the breaker moves to HALF-OPEN (success count
incremented, failure count and `nextRetryTime` unchanged — not to
Closed, and without resetting counters); if the probe fails the breaker
stays Open with `nextRetryTime` UNCHANGED.  The Closed-with-reset and
fresh-`nextRetryTime` outcomes belong to the HalfOpen state: a success
while HalfOpen transitions to Closed with both counters reset, and a
failure while HalfOpen returns to Open with `nextRetryTime = now +
timeout`. -/
theorem c1_probe_after_timeout (cb cb2 : CircuitBreaker) (now now2 : Nat)
    (hs : cb.state = .opened) (ht : now > cb.nextRetryTime)
    (hs2 : cb2.state = .halfOpen) :
    ((Execute cb now false).invoked = true ∧
      (Execute cb now false).breaker.state = .halfOpen ∧
      (Execute cb now false).breaker.failureCount = cb.failureCount ∧
      (Execute cb now false).breaker.successCount = cb.successCount + 1 ∧
      (Execute cb now false).breaker.nextRetryTime = cb.nextRetryTime) ∧
    ((Execute cb now true).invoked = true ∧
      (Execute cb now true).breaker.state = .opened ∧
      (Execute cb now true).breaker.failureCount = cb.failureCount + 1 ∧
      (Execute cb now true).breaker.nextRetryTime = cb.nextRetryTime) ∧
    ((Execute cb2 now2 false).breaker.state = .closed ∧
      (Execute cb2 now2 false).breaker.failureCount = 0 ∧
      (Execute cb2 now2 false).breaker.successCount = 0) ∧
    ((Execute cb2 now2 true).breaker.state = .opened ∧
      (Execute cb2 now2 true).breaker.nextRetryTime = now2 + cb2.timeout) := by
  have hc : canExecute cb now = true := by
    simp [canExecute, hs]
    omega
  refine ⟨?_, ?_, ?_, ?_⟩
  · simp [Execute, hc, recordResult, recordSuccess, hs, ht]
  · simp [Execute, hc, recordResult, recordFailure, hs]
  · simp [Execute, canExecute, recordResult, recordSuccess, resetCounters, hs2]
  · simp [Execute, canExecute, recordResult, recordFailure, hs2]

/-- C1 witness: the amended behavior at the concrete Open breaker
probed at `now = 6` and a concrete HalfOpen breaker probed at
`now = 9`. -/
theorem c1_probe_after_timeout_witness :
    ((Execute ⟨3, 10, .opened, 3, 1, 0, 5⟩ 6 false).breaker.state = .halfOpen ∧
      (Execute ⟨3, 10, .opened, 3, 1, 0, 5⟩ 6 false).breaker.successCount = 2) ∧
    ((Execute ⟨3, 10, .opened, 3, 1, 0, 5⟩ 6 true).breaker.nextRetryTime = 5) ∧
    ((Execute ⟨3, 10, .halfOpen, 3, 1, 0, 5⟩ 9 false).breaker.state = .closed ∧
      (Execute ⟨3, 10, .halfOpen, 3, 1, 0, 5⟩ 9 false).breaker.failureCount = 0) ∧
    ((Execute ⟨3, 10, .halfOpen, 3, 1, 0, 5⟩ 9 true).breaker.nextRetryTime = 9 + 10) := by
  have h := c1_probe_after_timeout ⟨3, 10, .opened, 3, 1, 0, 5⟩ ⟨3, 10, .halfOpen, 3, 1, 0, 5⟩
    6 9 rfl (by decide) rfl
  exact ⟨⟨h.1.2.1, by rw [h.1.2.2.2.1]⟩, h.2.1.2.2.2, ⟨h.2.2.1.1, h.2.2.1.2.1⟩, h.2.2.2.2⟩

/-- Unfolding equation for the exhausted retrier loop. -/
theorem executeFrom_zero (cfg : RetryConfig) (op : Nat → Option GoErr)
    (lastE : Option GoErr) (a : Nat) :
    ExecuteFrom cfg op lastE a 0 = { error := lastE, attempts := 0, sleeps := [] } := rfl

/-- Single-step unfolding equation for the retrier loop. -/
theorem executeFrom_succ (cfg : RetryConfig) (op : Nat → Option GoErr)
    (lastE : Option GoErr) (a r : Nat) :
    ExecuteFrom cfg op lastE a (r + 1) =
      (let pre : List Nat := if a > 0 then [calculateBackoff cfg a] else []
      match op a with
      | none => { error := none, attempts := 1, sleeps := pre }
      | some e =>
        if shouldRetry (some e) then
          let rest := ExecuteFrom cfg op (some e) (a + 1) r
          { error := rest.error, attempts := rest.attempts + 1, sleeps := pre ++ rest.sleeps }
        else
          { error := some e, attempts := 1, sleeps := pre }) := rfl

/-- Helper: the retrier loop performs at most `remaining` operation
invocations. -/
theorem executeFrom_attempts_le (cfg : RetryConfig) (op : Nat → Option GoErr) :
    ∀ r lastE a, (ExecuteFrom cfg op lastE a r).attempts ≤ r := by
  intro r
  induction r with
  | zero => intro lastE a; simp [executeFrom_zero]
  | succ n ih =>
    intro lastE a
    rw [executeFrom_succ]
    cases hop : op a with
    | none => simp
    | some e =>
      cases hsr : shouldRetry (some e) with
      | false => simp [hsr]
      | true =>
        simp only [hsr, if_true]
        exact Nat.succ_le_succ (ih (some e) (a + 1))

/-- Helper: starting from loop variable `attempt = a ≥ 1`, the retrier
sleeps the backoff of `a, a+1, ...` before each of its invocations. -/
theorem executeFrom_sleeps_eq (cfg : RetryConfig) (op : Nat → Option GoErr) :
    ∀ r a lastE, 1 ≤ a →
      (ExecuteFrom cfg op lastE a r).sleeps =
        (List.range (ExecuteFrom cfg op lastE a r).attempts).map
          (fun i => calculateBackoff cfg (i + a)) := by
  intro r
  induction r with
  | zero => intro a lastE _; simp [executeFrom_zero]
  | succ n ih =>
    intro a lastE ha
    rw [executeFrom_succ]
    have hpre : (a > 0) = True := by simp; omega
    cases hop : op a with
    | none => simp [hpre, List.range_succ]
    | some e =>
      cases hsr : shouldRetry (some e) with
      | false => simp [hsr, hpre, List.range_succ]
      | true =>
        simp only [hsr, if_true, hpre, if_pos trivial]
        rw [ih (a + 1) (some e) (by omega)]
        rw [List.range_succ_eq_map]
        have hfun : (fun i => calculateBackoff cfg (i + (a + 1)))
            = (fun i => calculateBackoff cfg (i + 1 + a)) := by
          funext i
          congr 1
          omega
        simp [List.map_map, Function.comp, hfun, Nat.zero_add]

/-- Helper: when every attempt in the window fails with a retryable
error, the retrier uses every remaining invocation and returns the last
attempt's error. -/
theorem executeFrom_all_retryable (cfg : RetryConfig) (op : Nat → Option GoErr) :
    ∀ r a lastE,
      (∀ k, a ≤ k → k ≤ a + r → ∃ e, op k = some e ∧ shouldRetry (some e) = true) →
      (ExecuteFrom cfg op lastE a (r + 1)).attempts = r + 1 ∧
      (ExecuteFrom cfg op lastE a (r + 1)).error = op (a + r) := by
  intro r
  induction r with
  | zero =>
    intro a lastE h
    obtain ⟨e, hop, hsr⟩ := h a (Nat.le_refl a) (by omega)
    rw [executeFrom_succ]
    simp [hop, hsr, executeFrom_zero]
  | succ n ih =>
    intro a lastE h
    obtain ⟨e, hop, hsr⟩ := h a (Nat.le_refl a) (by omega)
    have ihh := ih (a + 1) (some e) (fun k hk1 hk2 => h k (by omega) (by omega))
    rw [executeFrom_succ]
    simp only [hop, hsr, if_true]
    refine ⟨by rw [ihh.1], ?_⟩
    rw [ihh.2]
    congr 1
    omega

/-- C2: the Retrier honors the cancellation/deadline half of the claim
but NOT the explicit non-retryable mark.  At the failing input — an
operation that always returns `retry.NonRetryableError(errors.New
("boom"))` with `MaxRetries = 2`, initial delay 1s, factor 2.0 — the
code performs all 3 attempts and sleeps 1s and 2s in between, returning
the error only after exhaustion, even though the code's own
`IsRetryable` classifies the error as non-retryable; a cancellation or
deadline error by contrast does terminate after one attempt with no
sleep.  (`shouldRetry` consults only the two context sentinels and
never `IsRetryable`.) -/
theorem c2_nonretryable_mark_ignored :
    let cfg : RetryConfig := ⟨2, 1000000000, 30000000000, 2, 1⟩
    let e : GoErr := .nonRetryable (.msg "boom")
    IsRetryable e = false ∧
      RetrierExecute cfg (fun _ => some e) =
        { error := some e, attempts := 3, sleeps := [1000000000, 2000000000] } ∧
      RetrierExecute cfg (fun _ => some .canceled) =
        { error := some .canceled, attempts := 1, sleeps := [] } ∧
      RetrierExecute cfg (fun _ => some (.nonRetryable .deadlineExceeded)) =
        { error := some (.nonRetryable .deadlineExceeded), attempts := 1, sleeps := [] } := by
  decide

/-- C6: `Retrier.Execute` runs the operation at most `maxRetries + 1`
times; its sleeps are exactly one backoff before each retry (never
before the first attempt), the k-th being
`min(initialDelay * backoffFactor^(k-1), maxDelay)` (truncated to whole
nanoseconds by the `float64 → time.Duration` conversion) — for
`initialDelay = 1s`, `factor = 2.0`, `maxDelay = 30s` the schedule is
1s, 2s, 4s, 8s, 16s, 30s, 30s, 30s, ...; and when every attempt fails
with a retryable error, all `maxRetries + 1` attempts are used and the
last observed error is returned. -/
theorem c6_capped_exponential_backoff (cfg : RetryConfig) (op opAll : Nat → Option GoErr)
    (hall : ∀ k, k ≤ cfg.maxRetries → ∃ e, opAll k = some e ∧ shouldRetry (some e) = true) :
    ((RetrierExecute cfg op).attempts ≤ cfg.maxRetries + 1) ∧
    ((RetrierExecute cfg op).sleeps =
      (List.range ((RetrierExecute cfg op).attempts - 1)).map
        (fun k => calculateBackoff cfg (k + 1))) ∧
    (∀ k, calculateBackoff cfg k =
      min (cfg.initialDelay * cfg.factorNum ^ (k - 1) / cfg.factorDen ^ (k - 1))
        cfg.maxDelay) ∧
    ((List.range 8).map
        (fun k => calculateBackoff ⟨8, 1000000000, 30000000000, 2, 1⟩ (k + 1)) =
      [1000000000, 2000000000, 4000000000, 8000000000, 16000000000,
        30000000000, 30000000000, 30000000000]) ∧
    ((RetrierExecute cfg opAll).attempts = cfg.maxRetries + 1 ∧
      (RetrierExecute cfg opAll).error = opAll cfg.maxRetries) := by
  refine ⟨executeFrom_attempts_le cfg op _ none 0, ?_, ?_, by decide, ?_⟩
  · rw [RetrierExecute, executeFrom_succ]
    cases hop : op 0 with
    | none => simp
    | some e =>
      cases hsr : shouldRetry (some e) with
      | false => simp [hsr]
      | true =>
        simp only [hsr, if_true]
        rw [executeFrom_sleeps_eq cfg op cfg.maxRetries 1 (some e) le_rfl]
        simp [Nat.add_comm]
  · intro k
    simp only [calculateBackoff]
    split
    · omega
    · omega
  · have h := executeFrom_all_retryable cfg opAll cfg.maxRetries 0 none
      (fun k hk1 hk2 => hall k (by omega))
    simpa [RetrierExecute] using h

/-- C6 witness: a configuration with `maxRetries = 2` and an operation
failing retryably on every attempt uses 3 attempts and returns the last
observed error. -/
theorem c6_capped_exponential_backoff_witness :
    (RetrierExecute ⟨2, 1000000000, 30000000000, 2, 1⟩ (fun _ => some (.msg "x"))).attempts
        = 2 + 1 ∧
      (RetrierExecute ⟨2, 1000000000, 30000000000, 2, 1⟩
        (fun _ => some (.msg "x"))).error = some (.msg "x") :=
  (c6_capped_exponential_backoff ⟨2, 1000000000, 30000000000, 2, 1⟩
    (fun _ => some (.msg "x")) (fun _ => some (.msg "x"))
    (fun _ _ => ⟨.msg "x", rfl, by decide⟩)).2.2.2.2

/-- Single-step unfolding equation for the pagination loop. -/
theorem fetchAllLoop_succ (client : Int → Int → Except String (List ExternalItem))
    (fuel : Nat) (offset limit : Int) (acc : List ExternalItem) :
    fetchAllLoop client (fuel + 1) offset limit acc =
      (match client offset limit with
      | .error e => some { items := acc, error := some e, calls := 1 }
      | .ok items =>
        if items.isEmpty then
          some { items := acc, error := none, calls := 1 }
        else
          let acc1 := acc ++ items
          match extractNextURL items with
          | none => some { items := acc1, error := none, calls := 1 }
          | some nextURL =>
            let next : Int × Int :=
              match parseNextURL nextURL with
              | .error _ => (offset + limit, limit)
              | .ok ol => ol
            if (items.length : Int) < next.2 then
              some { items := acc1, error := none, calls := 1 }
            else
              match fetchAllLoop client fuel next.1 next.2 acc1 with
              | none => none
              | some r => some { r with calls := r.calls + 1 }) := rfl

/-- C7 counterexample: a page returned with FEWER records than the
requested page-size limit does NOT terminate the loop when the
continuation cursor carries a smaller limit: the first fetch, requested
with limit 3, returns 2 records plus a cursor whose query says
`limit=2`; the short-page guard compares the 2 records against the
cursor's limit 2 and the loop issues a second fetch call (`calls = 2`),
where the claim demands termination after the first. -/
theorem c7_counterexample :
    FetchAllItems
      (fun o l =>
        if o = 0 ∧ l = 3 then
          .ok [⟨1, "a", some "https://x/api?offset=3&limit=2"⟩, ⟨2, "b", none⟩]
        else .ok [])
      ⟨none, some 3⟩ 10 =
      some { items := [⟨1, "a", some "https://x/api?offset=3&limit=2"⟩, ⟨2, "b", none⟩],
             error := none, calls := 2 } ∧
    (2 : Int) < 3 := by
  exact ⟨rfl, by decide⟩

/-- C7 amended: `FetchAllItems` over 3 pages of sizes 2, 2, 1 with
requested page-size limit 2 returns exactly 5 records, in the original
fetch order, using exactly 3 fetch calls; and in general an empty page
terminates the pagination loop, as does a missing next cursor, as does
a returned page with fewer records than the page-size limit in effect
for the NEXT request — the limit parsed from the continuation cursor,
which coincides with the requested limit whenever the cursor does not
change it (the guard runs after the cursor is parsed, even though a
continuation cursor was present). -/
theorem c7_pagination_three_pages (client : Int → Int → Except String (List ExternalItem))
    (fuel : Nat) (offset limit o2 l2 : Int) (acc items : List ExternalItem) (u : String) :
    (FetchAllItems
      (fun o _ =>
        if o = 0 then
          .ok [⟨1, "bulbasaur", some "https://x/api?offset=2&limit=2"⟩,
            ⟨2, "ivysaur", none⟩]
        else if o = 2 then
          .ok [⟨3, "venusaur", some "https://x/api?offset=4&limit=2"⟩,
            ⟨4, "charmander", none⟩]
        else if o = 4 then
          .ok [⟨5, "charmeleon", some "https://x/api?offset=6&limit=2"⟩]
        else .error "unexpected")
      ⟨none, some 2⟩ 10 =
      some { items := [⟨1, "bulbasaur", some "https://x/api?offset=2&limit=2"⟩,
               ⟨2, "ivysaur", none⟩,
               ⟨3, "venusaur", some "https://x/api?offset=4&limit=2"⟩,
               ⟨4, "charmander", none⟩,
               ⟨5, "charmeleon", some "https://x/api?offset=6&limit=2"⟩],
             error := none, calls := 3 }) ∧
    (client offset limit = .ok [] →
      fetchAllLoop client (fuel + 1) offset limit acc =
        some { items := acc, error := none, calls := 1 }) ∧
    (client offset limit = .ok items → items ≠ [] → extractNextURL items = none →
      fetchAllLoop client (fuel + 1) offset limit acc =
        some { items := acc ++ items, error := none, calls := 1 }) ∧
    (client offset limit = .ok items → items ≠ [] → extractNextURL items = some u →
      parseNextURL u = .ok (o2, l2) → (items.length : Int) < l2 →
      fetchAllLoop client (fuel + 1) offset limit acc =
        some { items := acc ++ items, error := none, calls := 1 }) := by
  refine ⟨rfl, fun hcl => ?_, fun hcl hne hext => ?_, fun hcl hne hext hparse hlt => ?_⟩
  · rw [fetchAllLoop_succ, hcl]
    simp
  · rw [fetchAllLoop_succ, hcl]
    simp [hext, List.isEmpty_iff, hne]
  · rw [fetchAllLoop_succ, hcl]
    simp [hext, List.isEmpty_iff, hne, hparse, hlt]

/-- C7 witness: the three general termination conditions exercised on
concrete one-page clients — an empty page, a page with no continuation
cursor, and a short page whose cursor keeps limit 2. -/
theorem c7_pagination_three_pages_witness :
    fetchAllLoop (fun _ _ => .ok []) 4 0 2 [] =
      some { items := [], error := none, calls := 1 } ∧
    fetchAllLoop (fun _ _ => .ok [⟨9, "z", none⟩]) 4 0 1 [] =
      some { items := [⟨9, "z", none⟩], error := none, calls := 1 } ∧
    fetchAllLoop (fun _ _ => .ok [⟨8, "y", some "https://x/api?offset=5&limit=2"⟩]) 4 0 2 [] =
      some { items := [⟨8, "y", some "https://x/api?offset=5&limit=2"⟩],
             error := none, calls := 1 } :=
  ⟨(c7_pagination_three_pages (fun _ _ => .ok []) 3 0 2 0 0 [] [] "").2.1 rfl,
   (c7_pagination_three_pages (fun _ _ => .ok [⟨9, "z", none⟩]) 3 0 1 0 0 []
     [⟨9, "z", none⟩] "").2.2.1 rfl (by decide) rfl,
   (c7_pagination_three_pages (fun _ _ => .ok [⟨8, "y", some "https://x/api?offset=5&limit=2"⟩])
     3 0 2 5 2 [] [⟨8, "y", some "https://x/api?offset=5&limit=2"⟩]
     "https://x/api?offset=5&limit=2").2.2.2 rfl (by decide) rfl rfl (by decide)⟩

/-- C8: `parseNextURL` on a next-page URL whose query has `offset=40`
and no `limit` yields offset 40 and the default limit 20; and when the
next-page cursor fails to parse as a URL, the pagination loop continues
with `offset + limit` and the SAME limit, keeping the records
accumulated so far (it does not abort): the remainder of the run is the
loop restarted at `(offset + limit, limit)` with `acc ++ items`, with
one extra fetch call counted. -/
theorem c8_next_url_parsing_and_fallback
    (client : Int → Int → Except String (List ExternalItem))
    (fuel : Nat) (offset limit : Int) (acc items : List ExternalItem) (u : String) :
    (parseNextURL "https://pokeapi.co/api/v2/pokemon?offset=40" = .ok (40, 20)) ∧
    (client offset limit = .ok items → items ≠ [] → extractNextURL items = some u →
      parseNextURL u = .error () → ¬((items.length : Int) < limit) →
      fetchAllLoop client (fuel + 1) offset limit acc =
        (fetchAllLoop client fuel (offset + limit) limit (acc ++ items)).map
          (fun r => { r with calls := r.calls + 1 })) := by
  refine ⟨rfl, fun hcl hne hext hparse hlen => ?_⟩
  rw [fetchAllLoop_succ, hcl]
  simp only [List.isEmpty_iff, hne, if_neg, hext, hparse, hlen, if_false]
  cases fetchAllLoop client fuel (offset + limit) limit (acc ++ items) with
  | none => simp
  | some r => simp

/-- C8 witness: a malformed cursor (a control character makes
`url.Parse` fail) on a full page of 3 records at offset 7 with limit 3:
the loop continues at offset 10 with limit 3 keeping the 3 records, and
the next (empty) page ends the run with those records and 2 calls. -/
theorem c8_next_url_parsing_and_fallback_witness :
    fetchAllLoop
        (fun o l =>
          if o = 7 ∧ l = 3 then
            .ok [⟨1, "a", some "http://x\n?offset=9"⟩, ⟨2, "b", none⟩, ⟨3, "c", none⟩]
          else .ok [])
        6 7 3 [] =
      (fetchAllLoop
        (fun o l =>
          if o = 7 ∧ l = 3 then
            .ok [⟨1, "a", some "http://x\n?offset=9"⟩, ⟨2, "b", none⟩, ⟨3, "c", none⟩]
          else .ok [])
        5 (7 + 3) 3
        ([] ++ [⟨1, "a", some "http://x\n?offset=9"⟩, ⟨2, "b", none⟩, ⟨3, "c", none⟩])).map
        (fun r => { r with calls := r.calls + 1 }) :=
  (c8_next_url_parsing_and_fallback
    (fun o l =>
      if o = 7 ∧ l = 3 then
        .ok [⟨1, "a", some "http://x\n?offset=9"⟩, ⟨2, "b", none⟩, ⟨3, "c", none⟩]
      else .ok [])
    5 7 3 [] [⟨1, "a", some "http://x\n?offset=9"⟩, ⟨2, "b", none⟩, ⟨3, "c", none⟩]
    "http://x\n?offset=9").2 rfl (by decide) rfl rfl (by decide)

/-- Helper: the update clause of the upsert never changes a row's
unique-key fields, for any key probed. -/
theorem rowKeyMatches_upsertUpdate (src : String) (extID : Int) (now : Nat)
    (it : ExternalRecord) (h : String) (r : Row) :
    rowKeyMatches src extID (upsertUpdate now it h r) = rowKeyMatches src extID r := rfl

/-- Helper: the inserted row matches the upserted record's key. -/
theorem rowKeyMatches_insertRow (src : String) (now : Nat) (it : ExternalRecord) (h : String) :
    rowKeyMatches src it.id (insertRow now src it h) = true := by
  simp [rowKeyMatches, insertRow]

/-- Helper: `find?` through a map that rewrites exactly the rows
satisfying the predicate (with a key-preserving rewrite) finds the
rewritten first match. -/
theorem find?_condMap (p : Row → Bool) (f : Row → Row) (hf : ∀ r, p (f r) = p r) :
    ∀ tbl : List Row,
      (tbl.map fun r => if p r then f r else r).find? p = (tbl.find? p).map f := by
  intro tbl
  induction tbl with
  | nil => rfl
  | cons a l ih =>
    cases hpa : p a with
    | true => simp [List.find?_cons, hpa, hf]
    | false => simp [List.find?_cons, hpa, hf, ih]

/-- Helper: a key-preserving conditional map does not change how many
rows satisfy the predicate. -/
theorem countP_condMap (p : Row → Bool) (f : Row → Row) (hf : ∀ r, p (f r) = p r) :
    ∀ tbl : List Row,
      (tbl.map fun r => if p r then f r else r).countP p = tbl.countP p := by
  intro tbl
  induction tbl with
  | nil => rfl
  | cons a l ih =>
    cases hpa : p a with
    | true => simp [List.countP_cons, hpa, hf, ih]
    | false => simp [List.countP_cons, hpa, hf, ih]

/-- Helper: appending a single row to a table with no match makes that
row the found one (when it matches). -/
theorem find?_append_single (p : Row → Bool) (x : Row) :
    ∀ tbl : List Row, tbl.any p = false →
      (tbl ++ [x]).find? p = if p x then some x else none := by
  intro tbl
  induction tbl with
  | nil =>
    intro _
    cases hpx : p x with
    | true => simp [List.find?, hpx]
    | false => simp [List.find?, hpx]
  | cons a l ih =>
    intro h
    simp only [List.any_cons, Bool.or_eq_false_iff] at h
    simp [List.find?_cons, h.1, ih h.2]

/-- Helper: on a table containing the key (under the unique-key
invariant), the upsert rewrites the conflicting row in place:
the found row afterwards is the update clause applied to the found row
before. -/
theorem upsert_find_conflict (hash : String → String) (now : Nat) (src : String)
    (it : ExternalRecord) (tbl : List Row)
    (hyes : tbl.any (rowKeyMatches src it.id) = true) :
    findRow src it.id (UpsertWithHash hash now src it tbl) =
      (findRow src it.id tbl).map
        (upsertUpdate now it (calculateContentHash hash it.title it.extendInfo)) := by
  simp only [UpsertWithHash, hyes, if_true, findRow]
  exact find?_condMap (rowKeyMatches src it.id)
    (upsertUpdate now it (calculateContentHash hash it.title it.extendInfo)) (fun r => rfl) tbl

/-- Helper: the upsert leaves exactly one row matching the upserted
key. -/
theorem upsert_keyCount (hash : String → String) (now : Nat) (src : String)
    (it : ExternalRecord) (tbl : List Row) (hu : KeyUnique tbl) :
    keyCount src it.id (UpsertWithHash hash now src it tbl) = 1 := by
  cases hany : tbl.any (rowKeyMatches src it.id) with
  | false =>
    have h0 : tbl.countP (rowKeyMatches src it.id) = 0 := by
      rw [List.countP_eq_zero]
      intro a ha
      have := (List.any_eq_false).mp hany a ha
      simpa using this
    simp [UpsertWithHash, hany, keyCount, List.countP_append, h0,
      List.countP_cons, rowKeyMatches_insertRow]
  | true =>
    obtain ⟨a, ha, hpa⟩ := List.any_eq_true.mp hany
    have h1 : tbl.countP (rowKeyMatches src it.id) = 1 := by
      have hle := hu src it.id
      simp only [keyCount] at hle
      have hpos : 0 < tbl.countP (rowKeyMatches src it.id) :=
        List.countP_pos_iff.mpr ⟨a, ha, hpa⟩
      omega
    simp only [UpsertWithHash, hany, if_true, keyCount]
    rw [countP_condMap (rowKeyMatches src it.id)
      (upsertUpdate now it (calculateContentHash hash it.title it.extendInfo)) (fun r => rfl) tbl]
    exact h1

/-- Helper: after an upsert the key is always present. -/
theorem upsert_any_after (hash : String → String) (now : Nat) (src : String)
    (it : ExternalRecord) (tbl : List Row) (hu : KeyUnique tbl) :
    (UpsertWithHash hash now src it tbl).any (rowKeyMatches src it.id) = true := by
  have h := upsert_keyCount hash now src it tbl hu
  simp only [keyCount] at h
  have hpos : 0 < (UpsertWithHash hash now src it tbl).countP (rowKeyMatches src it.id) := by
    omega
  obtain ⟨a, ha, hpa⟩ := List.countP_pos_iff.mp hpos
  exact List.any_eq_true.mpr ⟨a, ha, hpa⟩

/-- Helper: every row found under the upserted key after an upsert
carries the freshly computed content hash. -/
theorem upsert_contentHash_after (hash : String → String) (now : Nat) (src : String)
    (it : ExternalRecord) (tbl : List Row) (r1 : Row)
    (hfind : findRow src it.id (UpsertWithHash hash now src it tbl) = some r1) :
    r1.contentHash = calculateContentHash hash it.title it.extendInfo := by
  cases hany : tbl.any (rowKeyMatches src it.id) with
  | false =>
    have : findRow src it.id (UpsertWithHash hash now src it tbl) =
        some (insertRow now src it (calculateContentHash hash it.title it.extendInfo)) := by
      simp only [UpsertWithHash, hany, Bool.false_eq_true, if_false, findRow]
      rw [find?_append_single _ _ tbl hany, if_pos (rowKeyMatches_insertRow ..)]
    rw [this] at hfind
    cases hfind
    rfl
  | true =>
    rw [upsert_find_conflict hash now src it tbl hany] at hfind
    cases hfr : findRow src it.id tbl with
    | none => rw [hfr] at hfind; cases hfind
    | some r0 =>
      rw [hfr] at hfind
      cases hfind
      rfl

/-- C5: calling `UpsertWithHash` twice with the same record for the
same `(external id, source)` creates no second row (the unique key
stays single), leaves `content_hash` unchanged and increments
`sync_attempts` by exactly 1 on the second call; on insert
`sync_attempts` starts at 1; and on identity conflict the title and
description always refresh, the attribute bag refreshes only when the
stored content hash differs from the new one, the content hash is set
to the latest value, `last_sync_error` is cleared and `created_at` is
untouched. -/
theorem c5_upsert_idempotent (hash : String → String) (now1 now2 : Nat) (src : String)
    (it : ExternalRecord) (tbl : List Row) (hu : KeyUnique tbl) :
    (tbl.any (rowKeyMatches src it.id) = false →
      UpsertWithHash hash now1 src it tbl =
        tbl ++ [insertRow now1 src it (calculateContentHash hash it.title it.extendInfo)] ∧
      (insertRow now1 src it (calculateContentHash hash it.title it.extendInfo)).syncAttempts
        = 1) ∧
    (∀ r r1, findRow src it.id tbl = some r →
      findRow src it.id (UpsertWithHash hash now1 src it tbl) = some r1 →
      r1.title = it.title ∧ r1.description = "" ∧
      r1.contentHash = calculateContentHash hash it.title it.extendInfo ∧
      r1.syncAttempts = r.syncAttempts + 1 ∧
      r1.lastSyncError = none ∧
      r1.extendInfo =
        (if r.contentHash ≠ calculateContentHash hash it.title it.extendInfo
          then it.extendInfo else r.extendInfo) ∧
      r1.createdAt = r.createdAt) ∧
    keyCount src it.id (UpsertWithHash hash now1 src it tbl) = 1 ∧
    (UpsertWithHash hash now2 src it (UpsertWithHash hash now1 src it tbl)).length =
      (UpsertWithHash hash now1 src it tbl).length ∧
    keyCount src it.id
      (UpsertWithHash hash now2 src it (UpsertWithHash hash now1 src it tbl)) = 1 ∧
    (∀ r1 r2, findRow src it.id (UpsertWithHash hash now1 src it tbl) = some r1 →
      findRow src it.id
        (UpsertWithHash hash now2 src it (UpsertWithHash hash now1 src it tbl)) = some r2 →
      r2.contentHash = r1.contentHash ∧ r2.syncAttempts = r1.syncAttempts + 1) := by
  have hany1 := upsert_any_after hash now1 src it tbl hu
  refine ⟨fun hno => ⟨by simp [UpsertWithHash, hno], rfl⟩, ?_, upsert_keyCount _ _ _ _ _ hu,
    ?_, ?_, ?_⟩
  · intro r r1 hfr hfr1
    have hyes : tbl.any (rowKeyMatches src it.id) = true := by
      rw [List.any_eq_true]
      exact ⟨r, List.mem_of_find?_eq_some hfr, List.find?_some hfr⟩
    rw [upsert_find_conflict hash now1 src it tbl hyes, hfr] at hfr1
    cases hfr1
    exact ⟨rfl, rfl, rfl, rfl, rfl, rfl, rfl⟩
  · generalize hT : UpsertWithHash hash now1 src it tbl = t1 at hany1
    simp [UpsertWithHash, hany1]
  · have h1 := upsert_keyCount hash now1 src it tbl hu
    generalize hT : UpsertWithHash hash now1 src it tbl = t1 at hany1 h1
    simp only [UpsertWithHash, hany1, if_true, keyCount]
    rw [countP_condMap (rowKeyMatches src it.id)
      (upsertUpdate now2 it (calculateContentHash hash it.title it.extendInfo)) (fun r => rfl) t1]
    simpa [keyCount] using h1
  · intro r1 r2 hfr1 hfr2
    rw [upsert_find_conflict hash now2 src it _ hany1, hfr1] at hfr2
    cases hfr2
    exact ⟨(upsert_contentHash_after hash now1 src it tbl r1 hfr1).symm, rfl⟩

/-- C5 witness: upserting the same record twice into an empty table
leaves a single row for the key, the same number of rows, an unchanged
content hash and a sync-attempt counter going 1 to 2. -/
theorem c5_upsert_idempotent_witness :
    keyCount "pokemon" 25
        (UpsertWithHash (fun s => s) 5 "pokemon" ⟨25, "pikachu", "js"⟩ []) = 1 ∧
      (UpsertWithHash (fun s => s) 9 "pokemon" ⟨25, "pikachu", "js"⟩
          (UpsertWithHash (fun s => s) 5 "pokemon" ⟨25, "pikachu", "js"⟩ [])).length =
        (UpsertWithHash (fun s => s) 5 "pokemon" ⟨25, "pikachu", "js"⟩ []).length ∧
      (∃ r1 r2,
        findRow "pokemon" 25
            (UpsertWithHash (fun s => s) 5 "pokemon" ⟨25, "pikachu", "js"⟩ []) = some r1 ∧
        findRow "pokemon" 25
            (UpsertWithHash (fun s => s) 9 "pokemon" ⟨25, "pikachu", "js"⟩
              (UpsertWithHash (fun s => s) 5 "pokemon" ⟨25, "pikachu", "js"⟩ [])) = some r2 ∧
        r2.contentHash = r1.contentHash ∧ r2.syncAttempts = r1.syncAttempts + 1) := by
  have hu : KeyUnique [] := fun _ _ => by simp [keyCount]
  have h := c5_upsert_idempotent (fun s => s) 5 9 "pokemon" ⟨25, "pikachu", "js"⟩ [] hu
  exact ⟨h.2.2.1, h.2.2.2.1, ⟨_, _, rfl, rfl, h.2.2.2.2.2 _ _ rfl rfl⟩⟩

/-- C9: once the run record has been created (status `running`),
every `SyncJob.Execute` run — success or failure, including the
unsupported-api-type early return — issues exactly one finalizing
`UpdateSyncJobRecord` through the deferred finalizer; that update
targets the created record, carries status `completed` when no error
was observed and `failed` otherwise, together with the final
processed/succeeded/failed counts, the observed error and the execution
duration; and the function's returned error is the body's last
error. -/
theorem c9_single_terminal_run_record (j : SyncJobModel) (createResult : Except String Nat)
    (syncRun : String → SyncOutcome) (execTime : Nat) (jobID : Nat)
    (hc : j.apiClientConfigured = true) (hcr : createResult = .ok jobID) :
    ((SyncJobExecute j createResult syncRun execTime).2.countP isUpdateRun = 1) ∧
    ((SyncJobExecute j createResult syncRun execTime).1 = (syncJobBody j syncRun).lastError) ∧
    (∀ id status p s f em t,
      JobRepoCall.updateRun id status p s f em t ∈
        (SyncJobExecute j createResult syncRun execTime).2 →
      id = jobID ∧
      status = (if (syncJobBody j syncRun).lastError.isSome then "failed" else "completed") ∧
      p = (syncJobBody j syncRun).processed ∧
      s = (syncJobBody j syncRun).succeeded ∧
      f = (syncJobBody j syncRun).failed ∧
      em = (syncJobBody j syncRun).lastError ∧
      t = execTime) := by
  subst hcr
  refine ⟨?_, ?_, ?_⟩
  · simp [SyncJobExecute, hc, List.countP_cons, isUpdateRun]
  · simp [SyncJobExecute, hc]
  · intro id status p s f em t hmem
    simp only [SyncJobExecute, hc, Bool.not_true, Bool.false_eq_true, if_false,
      List.mem_cons, List.mem_singleton, List.not_mem_nil, or_false] at hmem
    rcases hmem with h | h
    · cases h
    · cases h
      exact ⟨rfl, rfl, rfl, rfl, rfl, rfl, rfl⟩

/-- C9 witness: a configured pokemon job whose body processed 10
records with one failure and a last error issues exactly one update,
and returns the body's error. -/
theorem c9_single_terminal_run_record_witness :
    ((SyncJobExecute ⟨"sync", "pokemon", true⟩ (.ok 7)
        (fun _ => ⟨10, 9, 1, some "boom"⟩) 42).2.countP isUpdateRun = 1) ∧
    ((SyncJobExecute ⟨"sync", "pokemon", true⟩ (.ok 7)
        (fun _ => ⟨10, 9, 1, some "boom"⟩) 42).1 = some "boom") :=
  ⟨(c9_single_terminal_run_record ⟨"sync", "pokemon", true⟩ (.ok 7)
      (fun _ => ⟨10, 9, 1, some "boom"⟩) 42 7 rfl rfl).1,
   (c9_single_terminal_run_record ⟨"sync", "pokemon", true⟩ (.ok 7)
      (fun _ => ⟨10, 9, 1, some "boom"⟩) 42 7 rfl rfl).2.1⟩

/-- Helper: the scheduler loop fires every registered job once per
leading tick of its event sequence. -/
theorem schedLoop_firings (jobs : List String) (hne : jobs ≠ []) :
    ∀ events : List SchedEvent,
      (schedLoop jobs events).firings = List.replicate (ticksBeforeExit events) jobs := by
  intro events
  induction events with
  | nil => rfl
  | cons e rest ih =>
    cases e with
    | tick => simp [schedLoop, ticksBeforeExit, executeJobs, hne, List.replicate_succ, ih]
    | ctxDone => rfl
    | stopSignal => rfl

/-- C3 counterexample: an enabled scheduler with one registered job
whose context is cancelled before the first interval elapses fires NO
job at all — `Start` fires only on ticker ticks and `time.NewTicker`
delivers its first tick one full interval after creation, so nothing
fires "immediately upon starting" (and while the loop merely blocks in
`select`, still nothing has fired). -/
theorem c3_counterexample :
    SchedulerStart ⟨true, ["pokemon-sync"], false⟩ [.ctxDone] =
      { firings := [], exit := .ctxErr } ∧
    SchedulerStart ⟨true, ["pokemon-sync"], false⟩ [] =
      { firings := [], exit := .stillLooping } := by decide

/-- C3 amended: when the scheduler is enabled and at least one job is
registered, `Start` fires NO job immediately upon starting; it fires
all registered jobs once per tick of the fixed-interval ticker — the
first firing one full interval after start — until the context is
cancelled or `Stop()` is called; a disabled scheduler returns at once
without firing anything. -/
theorem c3_tick_driven_firings (s s2 : SchedulerModel)
    (events events2 : List SchedEvent)
    (hrun : s.running = false) (hen : s.enabled = true) (hne : s.jobs ≠ [])
    (hrun2 : s2.running = false) (hen2 : s2.enabled = false) :
    (SchedulerStart s events).firings = List.replicate (ticksBeforeExit events) s.jobs ∧
    SchedulerStart s2 events2 = { firings := [], exit := .disabled } := by
  constructor
  · simp only [SchedulerStart, hrun, hen, Bool.false_eq_true, if_false, Bool.not_true]
    exact schedLoop_firings s.jobs hne events
  · simp [SchedulerStart, hrun2, hen2]

/-- C3 witness: two ticks then cancellation fire the registered job
batch exactly twice; a disabled scheduler fires nothing. -/
theorem c3_tick_driven_firings_witness :
    (SchedulerStart ⟨true, ["pokemon-sync"], false⟩ [.tick, .tick, .ctxDone]).firings =
      [["pokemon-sync"], ["pokemon-sync"]] ∧
    SchedulerStart ⟨false, ["pokemon-sync"], false⟩ [.tick] =
      { firings := [], exit := .disabled } :=
  ⟨(c3_tick_driven_firings ⟨true, ["pokemon-sync"], false⟩ ⟨false, ["pokemon-sync"], false⟩
      [.tick, .tick, .ctxDone] [.tick] rfl rfl (by decide) rfl rfl).1,
   (c3_tick_driven_firings ⟨true, ["pokemon-sync"], false⟩ ⟨false, ["pokemon-sync"], false⟩
      [.tick, .tick, .ctxDone] [.tick] rfl rfl (by decide) rfl rfl).2⟩

end ItemSync
